import Mathlib

/-!
Verification development for the silica-django array-field reconciliation
engine. The Python code of `silica_django/fields.py` (class
`SilicaSubFormArrayField`) and `silica_django/forms.py`
(`SilicaFormMixin._extract_array_info`) is shallowly embedded below:
Python dicts become association lists, the Django form used as the item
validator becomes an injected function, the record store becomes an
explicit list of records plus an oracle describing which bulk operations
raise, and the store operations issued by a reconciliation pass are
recorded in an explicit event trace.
-/

namespace Silica

/-- Keys of posted dictionaries (Python str). -/
abbrev Key := String

/-- Values of posted dictionaries (raw POST values, Python str). -/
abbrev Value := String

/-- A Python dict modelled as an association list in insertion order;
lookup finds the first binding (keys built by `dictSet` stay unique). -/
abbrev Dict (α : Type) := List (Key × α)

/-- A posted item: mapping of field name to raw value. -/
abbrev Item := Dict Value

/-- Python `d.get(k)` / `d[k]`-style lookup: first binding for the key. -/
def dictLookup {α : Type} : Dict α → Key → Option α
  | [], _ => none
  | (k, v) :: rest, k0 => if k = k0 then some v else dictLookup rest k0

/-- Python `k in d`. -/
def dictContains {α : Type} (d : Dict α) (k : Key) : Bool :=
  (dictLookup d k).isSome

/-- Python `d[k] = v`: overwrite the existing binding in place, or append. -/
def dictSet {α : Type} : Dict α → Key → α → Dict α
  | [], k, v => [(k, v)]
  | (k0, v0) :: rest, k, v =>
      if k0 = k then (k, v) :: rest else (k0, v0) :: dictSet rest k v

/-- Python `d.get(k, default)`. -/
def dictGetD {α : Type} (d : Dict α) (k : Key) (dflt : α) : α :=
  (dictLookup d k).getD dflt

/-- Python `d.pop(k, None)`: the popped value and the dict without the key. -/
def dictPop {α : Type} (d : Dict α) (k : Key) : Option α × Dict α :=
  (dictLookup d k, d.filter (fun kv => !(decide (kv.1 = k))))

/-- Python truthiness of a popped identifier value: missing (`None`) and
the empty string are falsy, any other string is truthy. -/
def truthy : Option Value → Bool
  | none => false
  | some s => !(decide (s = ""))

/-- Python `x in l` for a list of raw values. -/
def valueIn (x : Value) (l : List Value) : Bool :=
  l.any (fun y => decide (y = x))

/-- A persisted record: its identifier-field value and its other fields. -/
structure Record where
  id : Value
  fields : Item
deriving DecidableEq, Repr

/-- Result of instantiating the nested instance form on one item:
`form.errors` and `form.cleaned_data` after `is_valid()`. -/
structure FormResult where
  errors : List String
  cleaned_data : Item
deriving DecidableEq, Repr

/-- Configuration of one `SilicaSubFormArrayField`: the identifier field
name and the externally supplied nested form (item validator) behaviour.
`form data inst` models `instance_form(data=data, instance=inst)` followed
by `is_valid()`; `formInitial` models `instance_form(instance=inst).initial`. -/
structure FieldCfg where
  idField : Key
  form : Item → Option Record → FormResult
  formInitial : Record → Item

/-- Python exceptions that escape the engine uncaught. -/
inductive PyErr where
  | keyError (k : Value)
deriving DecidableEq, Repr

/-- Store-level operations issued during a pass, in order. `deleteIssued`
is the `qs.delete()` call with the computed delete set, `updateCall` and
`createCall` are the per-item `handle_update` / `handle_create`
invocations (with the already-popped payload), `bulkCreate` / `bulkUpdate`
are the batched writes, `txBegin` / `txEnd` delimit `transaction.atomic()`,
and `refreshFetch` is the queryset re-fetch done by `refresh_data`. -/
inductive Event where
  | refreshFetch
  | txBegin
  | deleteIssued (records : List Record)
  | updateCall (pk : Value) (item : Item)
  | createCall (item : Item)
  | bulkCreate (objs : List Item)
  | bulkUpdate (objs : List (Value × Item))
  | txEnd
deriving DecidableEq, Repr

/-- Which store operations raise, and the `repr(e)` text of the raised
exception; `none` means the operation succeeds. -/
structure StoreOracle where
  deleteFails : Option String := none
  createFails : Option String := none
  updateFails : Option String := none

/-- The mutable state of a `SilicaSubFormArrayField`. In the source these
are class-level attributes (`queryset`, `_qs_lookup`, `initial`, `_raw`,
`_update_errors`, `_errors`), so one such state is shared by every
instance of the class. -/
structure FieldState where
  queryset : Option (List Record) := none
  qs_lookup_cache : Option (List (Value × Record)) := none
  initial : List Item := []
  raw : Option (List Item) := none
  update_errors : List (Value × List String) := []
  errors : List String := []
deriving DecidableEq, Repr

/-- `get_queryset`: both branches re-evaluate against the live store, so
the result is the current record list. -/
def get_queryset (store : List Record) : List Record := store

/-- The dict comprehension in `qs_lookup`: identifier to record; a later
duplicate identifier overwrites an earlier one (dict semantics). -/
def qs_lookup_build (records : List Record) : List (Value × Record) :=
  records.map (fun r => (r.id, r))

/-- Lookup in the identifier-to-record table (last binding wins, matching
the dict comprehension). -/
def lookupFind (m : List (Value × Record)) (pk : Value) : Option Record :=
  ((m.filter (fun p => decide (p.1 = pk))).getLast?).map (fun p => p.2)

/-- The `qs_lookup` property: recompute from a fresh queryset fetch when
the cache is falsy (`None` or the empty dict), else reuse the cache. -/
def qs_lookup (store : List Record) (st : FieldState) :
    List (Value × Record) × FieldState :=
  match st.qs_lookup_cache with
  | some m =>
      if m.isEmpty then
        let m2 := qs_lookup_build (get_queryset store)
        (m2, { st with qs_lookup_cache := some m2 })
      else (m, st)
  | none =>
      let m2 := qs_lookup_build (get_queryset store)
      (m2, { st with qs_lookup_cache := some m2 })

/-- `get_items_to_delete`: collect the identifier values present in the
posted items (the code keeps every present value, the empty string
included), then exclude records whose identifier is among them. -/
def get_items_to_delete (idField : Key) (queryset : List Record)
    (data : List Item) : List Record :=
  let item_keys := data.filterMap (fun datum => dictLookup datum idField)
  queryset.filter (fun r => !(valueIn r.id item_keys))

/-- Modelled from the spec words, for refinement comparison with
`get_items_to_delete`: the delete set is current records minus records
whose identifier appears as a NON-EMPTY identifier value in some posted
item. -/
def spec_delete_set (idField : Key) (records : List Record)
    (data : List Item) : List Record :=
  records.filter (fun r =>
    !(data.any (fun d =>
        decide (dictLookup d idField = some r.id) && !(decide (r.id = "")))))

/-- `perform_delete`: issue `qs.delete()`; a store failure is caught and
summarised onto the non-field error list. -/
def perform_delete (oracle : StoreOracle) (st : FieldState)
    (qs : List Record) : FieldState × List Event :=
  match oracle.deleteFails with
  | none => (st, [Event.deleteIssued qs])
  | some r =>
      ({ st with errors := st.errors ++ ["There was an error deleting items. " ++ r] },
       [Event.deleteIssued qs])

/-- `handle_delete`: compute the delete set from the cached queryset and
perform the deletion. -/
def handle_delete (cfg : FieldCfg) (oracle : StoreOracle) (st : FieldState)
    (data : List Item) : FieldState × List Event :=
  perform_delete oracle st
    (get_items_to_delete cfg.idField (st.queryset.getD []) data)

/-- `handle_create`: validate against the nested form with no bound
instance; on success stage the cleaned data for `bulk_create`, on failure
append a summarised message to the non-field error list. -/
def handle_create (cfg : FieldCfg) (st : FieldState) (item : Item) :
    Option Item × FieldState :=
  let form := cfg.form item none
  if form.errors.isEmpty then
    (some form.cleaned_data, st)
  else
    (none,
     { st with errors := st.errors ++
         ["There was an error creating an item. " ++ String.intercalate "; " form.errors] })

/-- Outcome of `handle_update`: the staged update object (if any), the
state after the call, and the uncaught exception (if any). -/
structure UpdateOut where
  staged : Option (Value × Item)
  st : FieldState
  err : Option PyErr
deriving Repr

/-- `handle_update`: `self.qs_lookup[pk]` raises a `KeyError` when the
identifier is not in the lookup table; otherwise validate against the
bound instance, staging a pre-identifier-tagged update on success and
recording the form errors under the identifier on failure. -/
def handle_update (cfg : FieldCfg) (store : List Record) (st : FieldState)
    (pk : Value) (item : Item) : UpdateOut :=
  let (m, st1) := qs_lookup store st
  match lookupFind m pk with
  | none => { staged := none, st := st1, err := some (PyErr.keyError pk) }
  | some inst =>
      let form := cfg.form item (some inst)
      if form.errors.isEmpty then
        { staged := some (pk, form.cleaned_data), st := st1, err := none }
      else
        { staged := none,
          st := { st1 with update_errors := st1.update_errors ++ [(pk, form.errors)] },
          err := none }

/-- Outcome of `prepare_for_commit`: staged creates and updates in posted
order, the state after processing, the posted items as mutated by the
in-place `item.pop` calls, the trace of per-item routing calls, and the
uncaught exception (if any) that aborted the loop. -/
structure CommitOut where
  creates : List Item
  updates : List (Value × Item)
  st : FieldState
  mutated : List Item
  trace : List Event
  err : Option PyErr
deriving Repr

/-- The loop body of `prepare_for_commit`: pop the identifier field out of
each item; a truthy value routes to `handle_update`, otherwise
`handle_create`. An exception from `handle_update` propagates, leaving the
remaining items unprocessed. -/
def prepare_for_commit_loop (cfg : FieldCfg) (store : List Record) :
    FieldState → List Item → CommitOut
  | st, [] => { creates := [], updates := [], st := st, mutated := [],
                trace := [], err := none }
  | st, item :: rest =>
      let p := dictPop item cfg.idField
      if truthy p.1 then
        let pkv := p.1.getD ""
        let u := handle_update cfg store st pkv p.2
        match u.err with
        | some e =>
            { creates := [], updates := [], st := u.st, mutated := p.2 :: rest,
              trace := [Event.updateCall pkv p.2], err := some e }
        | none =>
            let restOut := prepare_for_commit_loop cfg store u.st rest
            { creates := restOut.creates,
              updates :=
                (match u.staged with
                 | some s => s :: restOut.updates
                 | none => restOut.updates),
              st := restOut.st,
              mutated := p.2 :: restOut.mutated,
              trace := Event.updateCall pkv p.2 :: restOut.trace,
              err := restOut.err }
      else
        let c := handle_create cfg st p.2
        let restOut := prepare_for_commit_loop cfg store c.2 rest
        { creates :=
            (match c.1 with
             | some x => x :: restOut.creates
             | none => restOut.creates),
          updates := restOut.updates,
          st := restOut.st,
          mutated := p.2 :: restOut.mutated,
          trace := Event.createCall p.2 :: restOut.trace,
          err := restOut.err }

/-- `prepare_for_commit` over the posted data (an empty list stages
nothing, matching the `if data:` guard). -/
def prepare_for_commit (cfg : FieldCfg) (store : List Record)
    (st : FieldState) (data : List Item) : CommitOut :=
  prepare_for_commit_loop cfg store st data

/-- `refresh_data`: re-fetch the queryset (a fresh store read assigned
over the previous value) and recompute the externally visible initial
values; the lookup cache is not touched. -/
def refresh_data (cfg : FieldCfg) (store : List Record) (st : FieldState) :
    FieldState :=
  let qs := get_queryset store
  { st with
    queryset := some qs,
    initial := qs.map (fun inst => dictSet (cfg.formInitial inst) cfg.idField inst.id) }

/-- The two guarded bulk writes of `do_save`: `bulk_create` then
`bulk_update`, each only when its staged list is non-empty, each wrapped
in its own try/except that appends a distinct summarised message. -/
def bulk_phase (oracle : StoreOracle) (st : FieldState) (creates : List Item)
    (updates : List (Value × Item)) : FieldState × List Event :=
  let stepC :=
    if creates.isEmpty then (st, ([] : List Event))
    else
      match oracle.createFails with
      | none => (st, [Event.bulkCreate creates])
      | some r =>
          ({ st with errors := st.errors ++ ["There was an error creating new objects. " ++ r] },
           [Event.bulkCreate creates])
  let stepU :=
    if updates.isEmpty then (stepC.1, ([] : List Event))
    else
      match oracle.updateFails with
      | none => (stepC.1, [Event.bulkUpdate updates])
      | some r =>
          ({ stepC.1 with errors := stepC.1.errors ++ ["There was an error updating existing objects. " ++ r] },
           [Event.bulkUpdate updates])
  (stepU.1, stepC.2 ++ stepU.2)

/-- Outcome of `do_save`: the final field state, the ordered trace of
store operations, and the uncaught exception (if any). -/
structure SaveOut where
  st : FieldState
  trace : List Event
  err : Option PyErr
deriving Repr

/-- `do_save`: read the stored raw data, refresh the queryset, then inside
one transaction run the delete phase, the partition phase and the two
bulk writes, and finally refresh again. An uncaught exception aborts the
transaction: the bulk phase, the closing of the transaction and the final
refresh do not happen. `pre` is the store contents seen by the fetches
during the pass, `post` the contents seen by the final refresh. -/
def do_save (cfg : FieldCfg) (oracle : StoreOracle) (pre post : List Record)
    (st : FieldState) : SaveOut :=
  let data := st.raw.getD []
  let st1 := refresh_data cfg pre st
  let del := handle_delete cfg oracle st1 data
  let co := prepare_for_commit cfg pre del.1 data
  let stM := { co.st with raw := some co.mutated }
  match co.err with
  | some e =>
      { st := stM,
        trace := [Event.refreshFetch, Event.txBegin] ++ del.2 ++ co.trace,
        err := some e }
  | none =>
      let bulk := bulk_phase oracle stM co.creates co.updates
      { st := refresh_data cfg post bulk.1,
        trace := [Event.refreshFetch, Event.txBegin] ++ del.2 ++ co.trace
                  ++ bulk.2 ++ [Event.txEnd, Event.refreshFetch],
        err := none }

/-- Outcome of `data_as_forms`: the instantiated forms, the state after
the pass, the posted items as mutated by the in-place pops, and the
uncaught exception (if any). -/
structure FormsOut where
  forms : List FormResult
  st : FieldState
  mutated : List Item
  err : Option PyErr
deriving Repr

/-- `data_as_forms`: pop the identifier out of each posted item in place;
a truthy identifier binds the item to `self.qs_lookup[pk]` (raising a
`KeyError` when absent), otherwise the form is unbound. -/
def data_as_forms_loop (cfg : FieldCfg) (store : List Record) :
    FieldState → List Item → FormsOut
  | st, [] => { forms := [], st := st, mutated := [], err := none }
  | st, item :: rest =>
      let p := dictPop item cfg.idField
      if truthy p.1 then
        let (m, st1) := qs_lookup store st
        match lookupFind m (p.1.getD "") with
        | none =>
            { forms := [], st := st1, mutated := p.2 :: rest,
              err := some (PyErr.keyError (p.1.getD "")) }
        | some inst =>
            let form := cfg.form p.2 (some inst)
            let restOut := data_as_forms_loop cfg store st1 rest
            { forms := form :: restOut.forms, st := restOut.st,
              mutated := p.2 :: restOut.mutated, err := restOut.err }
      else
        let form := cfg.form p.2 none
        let restOut := data_as_forms_loop cfg store st rest
        { forms := form :: restOut.forms, st := restOut.st,
          mutated := p.2 :: restOut.mutated, err := restOut.err }

/-- Outcome of `to_python`. -/
structure ToPythonOut where
  result : Option (List FormResult)
  st : FieldState
  err : Option PyErr
deriving Repr

/-- `to_python`: store the raw data on the field, short-circuit on an
empty value, else turn the data into forms (mutating the stored raw items
through the shared references). -/
def to_python (cfg : FieldCfg) (store : List Record) (st : FieldState)
    (data : List Item) : ToPythonOut :=
  let st1 := { st with raw := some data }
  if data.isEmpty then { result := none, st := st1, err := none }
  else
    let fo := data_as_forms_loop cfg store st1 data
    { result := if fo.err.isSome then none else some fo.forms,
      st := { fo.st with raw := some fo.mutated },
      err := fo.err }

/-- `validate`: with a truthy coerced value, collect the errors of each
form and, when the non-field error list is non-empty, append it as one
more entry; raise (return `some`) when anything was collected. -/
def validate (st : FieldState) (value : Option (List FormResult)) :
    Option (List (List String)) :=
  match value with
  | none => none
  | some forms =>
      if forms.isEmpty then none
      else
        let errors := (forms.filter (fun f => !f.errors.isEmpty)).map (fun f => f.errors)
        let errors := if st.errors.isEmpty then errors else errors ++ [st.errors]
        if errors.isEmpty then none else some errors

/-- `SilicaSubFormField.handle_create` (the non-array sub-form field):
validate; on failure append `form.errors` to the class-level `errors`
list, which no operation ever resets. -/
def subform_handle_create (cfg : FieldCfg) (errors : List (List String))
    (data : Item) : Option Item × List (List String) :=
  let form := cfg.form data none
  if form.errors.isEmpty then (some form.cleaned_data, errors)
  else (none, errors ++ [form.errors])

/-- The first three delimiter-separated segments of a posted key, when the
key has at least three (`split_key[0]`, `split_key[1]`, `split_key[2]`);
`none` when the key has fewer segments. -/
def keyTriple (k : Key) : Option (Key × Key × Key) :=
  match k.splitOn "." with
  | n :: c :: f :: _ => some (n, c, f)
  | _ => none

/-- One step of the grouping in `_extract_array_info`:
`array_items_by_name_and_count[name][count][field] = value` on nested
insertion-ordered dicts with empty-dict defaults. -/
def addArrayItem (g : Dict (Dict Item)) (n c f : Key) (v : Value) :
    Dict (Dict Item) :=
  let inner := dictGetD g n []
  let itemMap := dictGetD inner c []
  dictSet g n (dictSet inner c (dictSet itemMap f v))

/-- The loop of `_extract_array_info`: keys with fewer than three segments
are skipped; other keys are recorded in `array_keys` and bucketed by
first segment then second segment. -/
def groupArray_loop : List (Key × Value) → List Key → Dict (Dict Item) →
    List Key × Dict (Dict Item)
  | [], ak, g => (ak, g)
  | (k, v) :: rest, ak, g =>
      match keyTriple k with
      | none => groupArray_loop rest ak g
      | some (n, c, f) => groupArray_loop rest (ak ++ [k]) (addArrayItem g n c f v)

/-- The grouping pass of `_extract_array_info` over the raw posted data. -/
def groupArray (raw : List (Key × Value)) : List Key × Dict (Dict Item) :=
  groupArray_loop raw [] []

/-- `SilicaFormMixin._extract_array_info` (the leading underscore of the
source name is dropped): the recognised array keys and, per array field
name, the list of accumulated item maps (`values_by_count.values()`, in
index-token insertion order). -/
def extract_array_info (raw : List (Key × Value)) :
    List Key × Dict (List Item) :=
  if raw.isEmpty then ([], [])
  else
    let g := groupArray raw
    (g.1, g.2.map (fun p => (p.1, p.2.map (fun q => q.2))))

/-- Lookup into the nested grouping structure: array-field name, then
index token, then sub-field name. -/
def nestedLookup (g : Dict (Dict Item)) (n c f : Key) : Option Value :=
  match dictLookup g n with
  | none => none
  | some byCount =>
      match dictLookup byCount c with
      | none => none
      | some item => dictLookup item f

/-- The route taken by one posted item in the partition phase, as a pure
function of the item alone: pop the identifier; truthy routes to the
update call, falsy to the create call. -/
def routeOf (idField : Key) (item : Item) : Event :=
  let p := dictPop item idField
  if truthy p.1 then Event.updateCall (p.1.getD "") p.2
  else Event.createCall p.2

/-- Whether an event is a per-item routing call. -/
def isRouteEv : Event → Bool
  | Event.updateCall _ _ => true
  | Event.createCall _ => true
  | _ => false

/-- Whether an event is the delete issue. -/
def isDeleteEv : Event → Bool
  | Event.deleteIssued _ => true
  | _ => false

/-- Whether an event is the bulk create. -/
def isBulkCreateEv : Event → Bool
  | Event.bulkCreate _ => true
  | _ => false

/-- Whether an event is the bulk update. -/
def isBulkUpdateEv : Event → Bool
  | Event.bulkUpdate _ => true
  | _ => false

end Silica

namespace Silica

/-- Helper for stating that the error containers are only appended to:
a field state with its two error containers emptied. -/
def blankErr (st : FieldState) : FieldState :=
  { st with errors := [], update_errors := [] }

/-- Helper: re-prefix the error containers of a commit outcome. -/
def shiftOut (e : List String) (u : List (Value × List String))
    (co : CommitOut) : CommitOut :=
  { co with st := { co.st with
      errors := e ++ co.st.errors,
      update_errors := u ++ co.st.update_errors } }

/-- A nested form behaving as an identity validator: no errors, cleaned
data equal to the posted data. Used as the concrete injected form in
witnesses and counterexamples. -/
def exForm : Item → Option Record → FormResult := fun item _ => ⟨[], item⟩

/-- Concrete field configuration with the default identifier field. -/
def exCfg : FieldCfg := ⟨"pk", exForm, fun r => r.fields⟩

/-- A store oracle on which every bulk operation succeeds. -/
def exOracle : StoreOracle := {}


/-! ## Basic lemmas about the dict model -/

theorem dictLookup_filter_ne {α : Type} (d : Dict α) (k : Key) :
    dictLookup (d.filter (fun kv => !(decide (kv.1 = k)))) k = none := by
  induction d with
  | nil => rfl
  | cons kv rest ih =>
      by_cases h : kv.1 = k
      · simp [List.filter, h, ih]
      · simp [List.filter, h, dictLookup, ih]

theorem dictContains_dictPop {α : Type} (d : Dict α) (k : Key) :
    dictContains (dictPop d k).2 k = false := by
  simp [dictContains, dictPop, dictLookup_filter_ne]

theorem dictPop_of_not_contains {α : Type} (d : Dict α) (k : Key)
    (h : dictContains d k = false) : (dictPop d k).2 = d := by
  simp only [dictPop]
  induction d with
  | nil => rfl
  | cons kv rest ih =>
      simp only [dictContains, dictLookup] at h ih
      by_cases hk : kv.1 = k
      · rw [if_pos hk] at h
        simp at h
      · rw [if_neg hk] at h
        simp [List.filter_cons, hk, ih h]

theorem valueIn_nil (x : Value) : valueIn x [] = false := rfl

theorem valueIn_filterMap {α : Type} (x : Value) (l : List α)
    (f : α → Option Value) :
    valueIn x (l.filterMap f) = l.any (fun a => decide (f a = some x)) := by
  induction l with
  | nil => rfl
  | cons a rest ih =>
      cases hf : f a with
      | none => simp [List.filterMap_cons, hf, ih]
      | some v =>
          simp only [List.filterMap_cons, hf, List.any_cons, ← ih, valueIn,
            List.any_cons]
          by_cases hv : v = x <;> simp [hv]

theorem dictLookup_dictSet {α : Type} (d : Dict α) (k k0 : Key) (v : α) :
    dictLookup (dictSet d k v) k0
      = if k = k0 then some v else dictLookup d k0 := by
  induction d with
  | nil => simp [dictSet, dictLookup]
  | cons kv rest ih =>
      obtain ⟨k1, v1⟩ := kv
      by_cases h1 : k1 = k
      · by_cases h2 : k = k0
        · simp [dictSet, h1, dictLookup, h2]
        · have hkv : ¬ k1 = k0 := fun h3 => h2 (h1 ▸ h3)
          simp [dictSet, h1, dictLookup, h2, hkv]
      · by_cases h2 : k1 = k0
        · have hne : ¬ k = k0 := fun he => h1 (by rw [he]; exact h2)
          have hne2 : ¬ k0 = k := fun he => hne he.symm
          simp [dictSet, h1, dictLookup, h2, hne, hne2]
        · simp [dictSet, h1, dictLookup, h2, ih]

end Silica

namespace Silica

/-- C1: in the partition phase of prepare_for_commit, every processed
posted item has its identifier field popped out of the payload and is
routed by the truthiness of the popped value alone: the trace of routing
calls is the pointwise image of routeOf, a function of the item only, so
whether the identifier is found among current records never influences the
routing; when no exception aborts the loop every posted item is processed. -/
theorem c1_partition_routing (cfg : FieldCfg) (store : List Record)
    (st : FieldState) (data : List Item) :
    (prepare_for_commit cfg store st data).trace
      = (data.take (prepare_for_commit cfg store st data).trace.length).map
          (routeOf cfg.idField)
    ∧ ((prepare_for_commit cfg store st data).trace.length = data.length
        ∨ (prepare_for_commit cfg store st data).err.isSome = true) := by
  rw [prepare_for_commit]
  induction data generalizing st with
  | nil => simp [prepare_for_commit_loop]
  | cons item rest ih =>
      simp only [prepare_for_commit_loop]
      by_cases ht : truthy (dictPop item cfg.idField).1
      · rw [if_pos ht]
        cases hu : (handle_update cfg store st ((dictPop item cfg.idField).1.getD "") (dictPop item cfg.idField).2).err with
        | some e =>
            simp [hu, routeOf, ht, List.take_succ_cons]
        | none =>
            simp only [hu]
            obtain ⟨ih1, ih2⟩ := ih (handle_update cfg store st ((dictPop item cfg.idField).1.getD "") (dictPop item cfg.idField).2).st
            constructor
            · rw [List.length_cons, List.take_succ_cons, List.map_cons, ← ih1]
              simp [routeOf, ht]
            · rcases ih2 with h | h
              · left; simp [h]
              · right; simpa using h
      · rw [if_neg ht]
        obtain ⟨ih1, ih2⟩ := ih (handle_create cfg st (dictPop item cfg.idField).2).2
        constructor
        · rw [List.length_cons, List.take_succ_cons, List.map_cons, ← ih1]
          simp [routeOf, ht]
        · rcases ih2 with h | h
          · left; simp [h]
          · right; simpa using h

end Silica

namespace Silica

theorem blankErr_override (x : FieldState) (a : List String)
    (b : List (Value × List String)) :
    blankErr { x with errors := a, update_errors := b } = blankErr x := rfl

theorem qs_lookup_snd (store : List Record) (st : FieldState) :
    (qs_lookup store st).2
      = { st with qs_lookup_cache := some (qs_lookup store st).1 } := by
  cases hc : st.qs_lookup_cache with
  | none => simp [qs_lookup, hc]
  | some m =>
      by_cases h : m.isEmpty
      · simp [qs_lookup, hc, h]
      · simp [qs_lookup, hc, h]
        rw [← hc]

theorem qs_lookup_blankErr (store : List Record) (st : FieldState) :
    qs_lookup store (blankErr st)
      = ((qs_lookup store st).1, blankErr (qs_lookup store st).2) := by
  cases hc : st.qs_lookup_cache with
  | none => simp [qs_lookup, blankErr, hc]
  | some m =>
      by_cases h : m.isEmpty <;>
        simp [qs_lookup, blankErr, hc, h]

theorem handle_update_shift (cfg : FieldCfg) (store : List Record)
    (st : FieldState) (pk : Value) (item : Item) :
    handle_update cfg store st pk item
      = { handle_update cfg store (blankErr st) pk item with
          st := { (handle_update cfg store (blankErr st) pk item).st with
              errors := st.errors
                ++ (handle_update cfg store (blankErr st) pk item).st.errors,
              update_errors := st.update_errors
                ++ (handle_update cfg store (blankErr st) pk item).st.update_errors } } := by
  unfold handle_update
  rw [qs_lookup_blankErr]
  cases hf : lookupFind (qs_lookup store st).1 pk with
  | none => simp [hf, blankErr, qs_lookup_snd]
  | some inst =>
      by_cases he : (cfg.form item (some inst)).errors.isEmpty <;>
        simp [hf, he, blankErr, qs_lookup_snd]

theorem handle_create_shift (cfg : FieldCfg) (st : FieldState) (item : Item) :
    handle_create cfg st item
      = ((handle_create cfg (blankErr st) item).1,
         { (handle_create cfg (blankErr st) item).2 with
             errors := st.errors ++ (handle_create cfg (blankErr st) item).2.errors,
             update_errors := st.update_errors
               ++ (handle_create cfg (blankErr st) item).2.update_errors }) := by
  unfold handle_create
  by_cases he : (cfg.form item none).errors.isEmpty <;> simp [he, blankErr]

theorem prepare_loop_shift (cfg : FieldCfg) (store : List Record)
    (data : List Item) : ∀ st : FieldState,
    prepare_for_commit_loop cfg store st data
      = shiftOut st.errors st.update_errors
          (prepare_for_commit_loop cfg store (blankErr st) data) := by
  induction data with
  | nil => intro st; simp [prepare_for_commit_loop, shiftOut, blankErr]
  | cons item rest ih =>
      intro st
      simp only [prepare_for_commit_loop]
      by_cases ht : truthy (dictPop item cfg.idField).1
      · rw [if_pos ht, if_pos ht]
        rw [handle_update_shift cfg store st]
        cases hu : (handle_update cfg store (blankErr st)
            ((dictPop item cfg.idField).1.getD "")
            (dictPop item cfg.idField).2).err with
        | some e => simp [hu, shiftOut]
        | none =>
            simp only [hu]
            conv_rhs => rw [ih]
            conv_lhs => rw [ih]
            simp [shiftOut, blankErr, List.append_assoc]
      · rw [if_neg ht, if_neg ht]
        rw [handle_create_shift cfg st]
        conv_rhs => rw [ih]
        conv_lhs => rw [ih]
        simp [shiftOut, blankErr, List.append_assoc]

end Silica

namespace Silica

theorem handle_update_st_queryset (cfg : FieldCfg) (store : List Record)
    (st : FieldState) (pk : Value) (item : Item) :
    (handle_update cfg store st pk item).st.queryset = st.queryset := by
  unfold handle_update
  cases hf : lookupFind (qs_lookup store st).1 pk with
  | none => simp [hf, qs_lookup_snd]
  | some inst =>
      by_cases he : (cfg.form item (some inst)).errors.isEmpty <;>
        simp [hf, he, qs_lookup_snd]

theorem handle_update_st_raw (cfg : FieldCfg) (store : List Record)
    (st : FieldState) (pk : Value) (item : Item) :
    (handle_update cfg store st pk item).st.raw = st.raw := by
  unfold handle_update
  cases hf : lookupFind (qs_lookup store st).1 pk with
  | none => simp [hf, qs_lookup_snd]
  | some inst =>
      by_cases he : (cfg.form item (some inst)).errors.isEmpty <;>
        simp [hf, he, qs_lookup_snd]

theorem qs_lookup_of_cache (store : List Record) (st : FieldState)
    (m : List (Value × Record)) (h1 : st.qs_lookup_cache = some m)
    (h2 : m.isEmpty = false) : qs_lookup store st = (m, st) := by
  simp [qs_lookup, h1, h2]

theorem handle_update_st_cache (cfg : FieldCfg) (store : List Record)
    (st : FieldState) (pk : Value) (item : Item) (m : List (Value × Record))
    (h1 : st.qs_lookup_cache = some m) (h2 : m.isEmpty = false) :
    (handle_update cfg store st pk item).st.qs_lookup_cache = some m := by
  unfold handle_update
  rw [qs_lookup_of_cache store st m h1 h2]
  cases hf : lookupFind m pk with
  | none => simp [hf, h1]
  | some inst =>
      by_cases he : (cfg.form item (some inst)).errors.isEmpty <;>
        simp [hf, he, h1]

theorem prepare_loop_queryset (cfg : FieldCfg) (store : List Record)
    (data : List Item) : ∀ st : FieldState,
    (prepare_for_commit_loop cfg store st data).st.queryset = st.queryset := by
  induction data with
  | nil => intro st; simp [prepare_for_commit_loop]
  | cons item rest ih =>
      intro st
      simp only [prepare_for_commit_loop]
      by_cases ht : truthy (dictPop item cfg.idField).1
      · rw [if_pos ht]
        cases hu : (handle_update cfg store st ((dictPop item cfg.idField).1.getD "")
            (dictPop item cfg.idField).2).err with
        | some e => simp [hu, handle_update_st_queryset]
        | none => simp [hu, ih, handle_update_st_queryset]
      · rw [if_neg ht]
        have hc : (handle_create cfg st (dictPop item cfg.idField).2).2.queryset
            = st.queryset := by
          unfold handle_create
          by_cases he : (cfg.form (dictPop item cfg.idField).2 none).errors.isEmpty <;>
            simp [he]
        simp [ih, hc]

theorem prepare_loop_raw (cfg : FieldCfg) (store : List Record)
    (data : List Item) : ∀ st : FieldState,
    (prepare_for_commit_loop cfg store st data).st.raw = st.raw := by
  induction data with
  | nil => intro st; simp [prepare_for_commit_loop]
  | cons item rest ih =>
      intro st
      simp only [prepare_for_commit_loop]
      by_cases ht : truthy (dictPop item cfg.idField).1
      · rw [if_pos ht]
        cases hu : (handle_update cfg store st ((dictPop item cfg.idField).1.getD "")
            (dictPop item cfg.idField).2).err with
        | some e => simp [hu, handle_update_st_raw]
        | none => simp [hu, ih, handle_update_st_raw]
      · rw [if_neg ht]
        have hc : (handle_create cfg st (dictPop item cfg.idField).2).2.raw = st.raw := by
          unfold handle_create
          by_cases he : (cfg.form (dictPop item cfg.idField).2 none).errors.isEmpty <;>
            simp [he]
        simp [ih, hc]

theorem prepare_loop_cache (cfg : FieldCfg) (store : List Record)
    (data : List Item) : ∀ (st : FieldState) (m : List (Value × Record)),
    st.qs_lookup_cache = some m → m.isEmpty = false →
    (prepare_for_commit_loop cfg store st data).st.qs_lookup_cache = some m := by
  induction data with
  | nil => intro st m h1 _; simp [prepare_for_commit_loop, h1]
  | cons item rest ih =>
      intro st m h1 h2
      simp only [prepare_for_commit_loop]
      by_cases ht : truthy (dictPop item cfg.idField).1
      · rw [if_pos ht]
        cases hu : (handle_update cfg store st ((dictPop item cfg.idField).1.getD "")
            (dictPop item cfg.idField).2).err with
        | some e => simp [hu, handle_update_st_cache cfg store st _ _ m h1 h2]
        | none =>
            simp only [hu]
            exact ih _ m (handle_update_st_cache cfg store st _ _ m h1 h2) h2
      · rw [if_neg ht]
        have hc : (handle_create cfg st (dictPop item cfg.idField).2).2.qs_lookup_cache
            = some m := by
          unfold handle_create
          by_cases he : (cfg.form (dictPop item cfg.idField).2 none).errors.isEmpty <;>
            simp [he, h1]
        simp only []
        exact ih _ m hc h2

theorem prepare_loop_trace_route (cfg : FieldCfg) (store : List Record)
    (data : List Item) : ∀ st : FieldState,
    ((prepare_for_commit_loop cfg store st data).trace).all isRouteEv = true := by
  induction data with
  | nil => intro st; simp [prepare_for_commit_loop]
  | cons item rest ih =>
      intro st
      simp only [prepare_for_commit_loop]
      by_cases ht : truthy (dictPop item cfg.idField).1
      · rw [if_pos ht]
        cases hu : (handle_update cfg store st ((dictPop item cfg.idField).1.getD "")
            (dictPop item cfg.idField).2).err with
        | some e => simp [hu, isRouteEv]
        | none => simp [hu, isRouteEv, ih]
      · rw [if_neg ht]
        simp [isRouteEv, ih]

end Silica

namespace Silica

theorem refresh_data_errors (cfg : FieldCfg) (store : List Record)
    (st : FieldState) : (refresh_data cfg store st).errors = st.errors := rfl

theorem refresh_data_update_errors (cfg : FieldCfg) (store : List Record)
    (st : FieldState) :
    (refresh_data cfg store st).update_errors = st.update_errors := rfl

theorem refresh_data_cache (cfg : FieldCfg) (store : List Record)
    (st : FieldState) :
    (refresh_data cfg store st).qs_lookup_cache = st.qs_lookup_cache := rfl

theorem refresh_data_raw (cfg : FieldCfg) (store : List Record)
    (st : FieldState) : (refresh_data cfg store st).raw = st.raw := rfl

theorem refresh_data_queryset (cfg : FieldCfg) (store : List Record)
    (st : FieldState) :
    (refresh_data cfg store st).queryset = some (get_queryset store) := rfl

theorem bulk_phase_fst (oracle : StoreOracle) (st : FieldState)
    (creates : List Item) (updates : List (Value × Item)) :
    (bulk_phase oracle st creates updates).1
      = { st with errors := st.errors
          ++ (if creates.isEmpty then []
              else match oracle.createFails with
                | none => []
                | some r => ["There was an error creating new objects. " ++ r])
          ++ (if updates.isEmpty then []
              else match oracle.updateFails with
                | none => []
                | some r => ["There was an error updating existing objects. " ++ r]) } := by
  unfold bulk_phase
  by_cases hc : creates.isEmpty <;> by_cases hu : updates.isEmpty <;>
    cases oracle.createFails <;> cases oracle.updateFails <;>
      simp [hc, hu, List.append_assoc]

theorem bulk_phase_trace (oracle : StoreOracle) (st : FieldState)
    (creates : List Item) (updates : List (Value × Item)) :
    (bulk_phase oracle st creates updates).2
      = (if creates.isEmpty then [] else [Event.bulkCreate creates])
        ++ (if updates.isEmpty then [] else [Event.bulkUpdate updates]) := by
  unfold bulk_phase
  by_cases hc : creates.isEmpty <;> by_cases hu : updates.isEmpty <;>
    cases oracle.createFails <;> cases oracle.updateFails <;>
      simp [hc, hu]

theorem blankErr_override_errors (x : FieldState) (a : List String) :
    blankErr { x with errors := a } = blankErr x := rfl

theorem do_save_norm (cfg : FieldCfg) (oracle : StoreOracle)
    (pre post : List Record) (st : FieldState) :
    do_save cfg oracle pre post st
      = (let data := st.raw.getD []
         let D : List String := match oracle.deleteFails with
           | none => []
           | some r => ["There was an error deleting items. " ++ r]
         let ds := get_items_to_delete cfg.idField (get_queryset pre) data
         let core := prepare_for_commit_loop cfg pre
           (blankErr (refresh_data cfg pre st)) data
         match core.err with
         | some e =>
             { st := { core.st with
                   errors := st.errors ++ D ++ core.st.errors,
                   update_errors := st.update_errors ++ core.st.update_errors,
                   raw := some core.mutated },
               trace := [Event.refreshFetch, Event.txBegin, Event.deleteIssued ds]
                 ++ core.trace,
               err := some e }
         | none =>
             { st := refresh_data cfg post { core.st with
                   errors := st.errors ++ D ++ core.st.errors
                     ++ (if core.creates.isEmpty then []
                         else match oracle.createFails with
                           | none => []
                           | some r => ["There was an error creating new objects. " ++ r])
                     ++ (if core.updates.isEmpty then []
                         else match oracle.updateFails with
                           | none => []
                           | some r => ["There was an error updating existing objects. " ++ r]),
                   update_errors := st.update_errors ++ core.st.update_errors,
                   raw := some core.mutated },
               trace := [Event.refreshFetch, Event.txBegin, Event.deleteIssued ds]
                 ++ core.trace
                 ++ (if core.creates.isEmpty then [] else [Event.bulkCreate core.creates])
                 ++ (if core.updates.isEmpty then [] else [Event.bulkUpdate core.updates])
                 ++ [Event.txEnd, Event.refreshFetch],
               err := none }) := by
  obtain ⟨d, c, u⟩ := oracle
  cases d with
  | none =>
      simp only [do_save, handle_delete, perform_delete, prepare_for_commit]
      rw [prepare_loop_shift]
      cases hcore : (prepare_for_commit_loop cfg pre
          (blankErr (refresh_data cfg pre st)) (st.raw.getD [])).err with
      | some e =>
          simp [hcore, shiftOut, refresh_data_errors, refresh_data_update_errors,
            refresh_data_queryset]
      | none =>
          simp [hcore, shiftOut, bulk_phase_fst, bulk_phase_trace,
            refresh_data_errors, refresh_data_update_errors,
            refresh_data_queryset, List.append_assoc]
  | some r =>
      simp only [do_save, handle_delete, perform_delete, prepare_for_commit]
      rw [prepare_loop_shift, blankErr_override_errors]
      cases hcore : (prepare_for_commit_loop cfg pre
          (blankErr (refresh_data cfg pre st)) (st.raw.getD [])).err with
      | some e =>
          simp [hcore, shiftOut, refresh_data_errors, refresh_data_update_errors,
            refresh_data_queryset, List.append_assoc]
      | none =>
          simp [hcore, shiftOut, bulk_phase_fst, bulk_phase_trace,
            refresh_data_errors, refresh_data_update_errors,
            refresh_data_queryset, List.append_assoc]

end Silica

namespace Silica

theorem filterMap_lookup_nil (k : Key) (data : List Item)
    (h : data.all (fun it => !(dictContains it k)) = true) :
    data.filterMap (fun d => dictLookup d k) = [] := by
  induction data with
  | nil => rfl
  | cons it rest ih =>
      simp only [List.all_cons, Bool.and_eq_true] at h
      have h1 : dictLookup it k = none := by
        have := h.1
        simp [dictContains, Option.isSome] at this
        cases hl : dictLookup it k with
        | none => rfl
        | some v => rw [hl] at this; simp at this
      simp [List.filterMap_cons, h1, ih h.2]

theorem get_items_to_delete_no_id (idField : Key) (records : List Record)
    (data : List Item)
    (h : data.all (fun it => !(dictContains it idField)) = true) :
    get_items_to_delete idField records data = records := by
  simp [get_items_to_delete, filterMap_lookup_nil idField data h, valueIn]

theorem prepare_loop_all_create (cfg : FieldCfg) (store : List Record)
    (data : List Item)
    (h : data.all (fun it => !(dictContains it cfg.idField)) = true) :
    ∀ st : FieldState,
    (prepare_for_commit_loop cfg store st data).trace = data.map Event.createCall
    ∧ (prepare_for_commit_loop cfg store st data).err = none := by
  induction data with
  | nil => intro st; simp [prepare_for_commit_loop]
  | cons it rest ih =>
      intro st
      simp only [List.all_cons, Bool.and_eq_true] at h
      have h1 : dictLookup it cfg.idField = none := by
        have := h.1
        simp [dictContains, Option.isSome] at this
        cases hl : dictLookup it cfg.idField with
        | none => rfl
        | some v => rw [hl] at this; simp at this
      have ht : truthy (dictPop it cfg.idField).1 = false := by
        simp [dictPop, h1, truthy]
      have hp : (dictPop it cfg.idField).2 = it :=
        dictPop_of_not_contains it cfg.idField (by simp [dictContains, h1])
      simp only [prepare_for_commit_loop, ht, Bool.false_eq_true, if_false, hp]
      obtain ⟨ih1, ih2⟩ := ih h.2 (handle_create cfg st it).2
      simp [ih1, ih2]

theorem data_as_forms_loop_pres (cfg : FieldCfg) (store : List Record)
    (data : List Item) : ∀ st : FieldState,
    (data_as_forms_loop cfg store st data).st.errors = st.errors
    ∧ (data_as_forms_loop cfg store st data).st.update_errors = st.update_errors := by
  induction data with
  | nil => intro st; simp [data_as_forms_loop]
  | cons it rest ih =>
      intro st
      simp only [data_as_forms_loop]
      by_cases ht : truthy (dictPop it cfg.idField).1
      · rw [if_pos ht]
        cases hf : lookupFind (qs_lookup store st).1 ((dictPop it cfg.idField).1.getD "") with
        | none => simp [hf, qs_lookup_snd]
        | some inst =>
            obtain ⟨ih1, ih2⟩ := ih (qs_lookup store st).2
            rw [qs_lookup_snd] at ih1 ih2
            simp [hf, ih1, ih2, qs_lookup_snd]
      · rw [if_neg ht]
        obtain ⟨ih1, ih2⟩ := ih st
        simp [ih1, ih2]

theorem data_as_forms_loop_mutated (cfg : FieldCfg) (store : List Record)
    (data : List Item) : ∀ st : FieldState,
    (data_as_forms_loop cfg store st data).err = none →
    (data_as_forms_loop cfg store st data).mutated
      = data.map (fun it => (dictPop it cfg.idField).2) := by
  induction data with
  | nil => intro st _; simp [data_as_forms_loop]
  | cons it rest ih =>
      intro st
      simp only [data_as_forms_loop]
      by_cases ht : truthy (dictPop it cfg.idField).1
      · rw [if_pos ht]
        cases hf : lookupFind (qs_lookup store st).1 ((dictPop it cfg.idField).1.getD "") with
        | none => intro h; simp at h
        | some inst =>
            intro h
            simp only [] at h
            simp [ih (qs_lookup store st).2 h]
      · rw [if_neg ht]
        intro h
        simp only [] at h
        simp [ih st h]

theorem to_python_pres (cfg : FieldCfg) (store : List Record)
    (st : FieldState) (data : List Item) :
    (to_python cfg store st data).st.errors = st.errors
    ∧ (to_python cfg store st data).st.update_errors = st.update_errors := by
  unfold to_python
  by_cases hd : data.isEmpty
  · simp [hd]
  · obtain ⟨h1, h2⟩ := data_as_forms_loop_pres cfg store data { st with raw := some data }
    simp [hd, h1, h2]

theorem filter_isEmpty_eq_not_any {α : Type} (p : α → Bool) (l : List α) :
    (l.filter p).isEmpty = !l.any p := by
  induction l with
  | nil => rfl
  | cons a rest ih =>
      by_cases h : p a <;> simp [List.filter_cons, h, ih]

theorem not_bulkCreate_mem_of_route (l : List Event)
    (h : l.all isRouteEv = true) (cs : List Item) :
    Event.bulkCreate cs ∈ l → False := by
  intro hm
  have := List.all_eq_true.mp h _ hm
  simp [isRouteEv] at this

theorem not_bulkUpdate_mem_of_route (l : List Event)
    (h : l.all isRouteEv = true) (us : List (Value × Item)) :
    Event.bulkUpdate us ∈ l → False := by
  intro hm
  have := List.all_eq_true.mp h _ hm
  simp [isRouteEv] at this

end Silica

namespace Silica

/-- C2 counterexample: with a current record whose identifier is the
empty string and a posted item carrying an empty identifier value,
get_items_to_delete deletes nothing, while the spec formula (current
records minus records whose identifier appears as a NON-EMPTY posted
value) requires that record to be deleted: the code collects every
PRESENT identifier value, the empty string included. -/
theorem c2_delete_set_counterexample :
    get_items_to_delete "pk" [⟨"", []⟩] [[("pk", "")]] = []
    ∧ spec_delete_set "pk" [⟨"", []⟩] [[("pk", "")]] = [⟨"", []⟩] := by
  exact ⟨by decide, by decide⟩

/-- C2 (amended): the delete set equals, as a set (membership
characterization, hence order-independent), the current records minus the
records whose identifier appears as an identifier value PRESENT in some
posted item (the empty string included); in particular an empty
posted-item list deletes every current record, and the partition phase on
an empty posted-item list stages no creates and no updates. -/
theorem c2_delete_set_characterization (idField : Key) (records : List Record)
    (data : List Item) (r : Record) (cfg : FieldCfg) (store : List Record)
    (st : FieldState) :
    (r ∈ get_items_to_delete idField records data ↔
      r ∈ records
      ∧ (data.any (fun d => decide (dictLookup d idField = some r.id))) = false)
    ∧ get_items_to_delete idField records [] = records
    ∧ (prepare_for_commit cfg store st []).creates = []
    ∧ (prepare_for_commit cfg store st []).updates = [] := by
  refine ⟨?_, ?_, rfl, rfl⟩
  · unfold get_items_to_delete
    rw [List.mem_filter, valueIn_filterMap]
    simp
  · simp [get_items_to_delete, valueIn]

/-- C3 (amended): a posted item carrying a truthy identifier that is
absent from the identifier-to-record lookup table makes handle_update
raise an uncaught KeyError which aborts prepare_for_commit: nothing is
recorded in the per-identifier update-error list, the non-field error
list is unchanged, the item is never converted into a create, and the
remaining items are not processed (the trace stops at this routing call). -/
theorem c3_missing_identifier_keyerror (cfg : FieldCfg) (store : List Record)
    (st : FieldState) (item : Item) (rest : List Item)
    (h1 : truthy (dictPop item cfg.idField).1 = true)
    (h2 : lookupFind (qs_lookup store st).1
        ((dictPop item cfg.idField).1.getD "") = none) :
    (prepare_for_commit cfg store st (item :: rest)).err
        = some (PyErr.keyError ((dictPop item cfg.idField).1.getD ""))
    ∧ (prepare_for_commit cfg store st (item :: rest)).trace
        = [Event.updateCall ((dictPop item cfg.idField).1.getD "")
            (dictPop item cfg.idField).2]
    ∧ (prepare_for_commit cfg store st (item :: rest)).st.update_errors
        = st.update_errors
    ∧ (prepare_for_commit cfg store st (item :: rest)).st.errors = st.errors
    ∧ (prepare_for_commit cfg store st (item :: rest)).creates = []
    ∧ (prepare_for_commit cfg store st (item :: rest)).updates = [] := by
  have hu : handle_update cfg store st ((dictPop item cfg.idField).1.getD "")
      (dictPop item cfg.idField).2
      = { staged := none, st := (qs_lookup store st).2,
          err := some (PyErr.keyError ((dictPop item cfg.idField).1.getD "")) } := by
    unfold handle_update
    rcases hq : qs_lookup store st with ⟨m, st1⟩
    rw [hq] at h2
    simp only [] at h2
    simp [h2, hq]
  simp [prepare_for_commit, prepare_for_commit_loop, h1, hu, qs_lookup_snd]

/-- C3 witness: concrete run of the amended theorem, posted identifier 99
absent from a store holding only record 1. -/
theorem c3_missing_identifier_keyerror_witness :
    truthy (dictPop [("pk", "99"), ("name", "X")] exCfg.idField).1 = true
    ∧ (prepare_for_commit exCfg [⟨"1", [("name", "A")]⟩] {}
        ([("pk", "99"), ("name", "X")] :: [[("name", "Z")]])).err
      = some (PyErr.keyError "99") :=
  ⟨by decide,
   (c3_missing_identifier_keyerror exCfg [⟨"1", [("name", "A")]⟩] {}
      [("pk", "99"), ("name", "X")] [[("name", "Z")]]
      (by decide) (by decide)).1⟩

/-- C3 counterexample: a full do_save with posted identifier 99 absent
from the current records aborts with an uncaught KeyError, the
per-identifier update-error list stays empty (the error is NOT recorded
under the identifier), and the remaining posted item is never processed
(the trace ends at the update call), refuting the claim that the
condition is recorded per identifier and that reconciliation of the
remaining items still surfaces all collected errors. -/
theorem c3_keyerror_unrecorded_counterexample :
    (do_save exCfg exOracle [⟨"1", [("name", "A")]⟩] [⟨"1", [("name", "A")]⟩]
        { raw := some [[("pk", "99"), ("name", "X")], [("name", "Z")]] }).err
      = some (PyErr.keyError "99")
    ∧ (do_save exCfg exOracle [⟨"1", [("name", "A")]⟩] [⟨"1", [("name", "A")]⟩]
        { raw := some [[("pk", "99"), ("name", "X")], [("name", "Z")]] }).st.update_errors
      = []
    ∧ (do_save exCfg exOracle [⟨"1", [("name", "A")]⟩] [⟨"1", [("name", "A")]⟩]
        { raw := some [[("pk", "99"), ("name", "X")], [("name", "Z")]] }).trace
      = [Event.refreshFetch, Event.txBegin,
         Event.deleteIssued [⟨"1", [("name", "A")]⟩],
         Event.updateCall "99" [("name", "X")]] := by
  exact ⟨by decide, by decide, by decide⟩

/-- C4 (code bug): the full to_python plus do_save cycle on a posted-item
list that exactly matches the single current record (same identifier,
same field values, identity validator) is NOT idempotent: data_as_forms
pops the identifier out of the stored raw items during to_python, so
do_save deletes the matching record and bulk-creates a fresh copy instead
of producing zero creates, zero deletes and one matching update. -/
theorem c4_matching_cycle_deletes_and_recreates :
    (to_python exCfg [⟨"1", [("name", "A")]⟩] {} [[("pk", "1"), ("name", "A")]]).err
      = none
    ∧ (do_save exCfg exOracle [⟨"1", [("name", "A")]⟩] [⟨"1", [("name", "A")]⟩]
        (to_python exCfg [⟨"1", [("name", "A")]⟩] {}
          [[("pk", "1"), ("name", "A")]]).st).trace
      = [Event.refreshFetch, Event.txBegin,
         Event.deleteIssued [⟨"1", [("name", "A")]⟩],
         Event.createCall [("name", "A")],
         Event.bulkCreate [[("name", "A")]],
         Event.txEnd, Event.refreshFetch] := by
  exact ⟨by decide, by decide⟩

end Silica

namespace Silica

theorem filter_deleteEv_map_create (l : List Item) :
    (l.map Event.createCall).filter isDeleteEv = [] := by
  induction l with
  | nil => rfl
  | cons a t ih => simp [isDeleteEv, ih]

theorem filter_routeEv_map_create (l : List Item) :
    (l.map Event.createCall).filter isRouteEv = l.map Event.createCall := by
  induction l with
  | nil => rfl
  | cons a t ih => simp [isRouteEv, ih]

/-- C5: to_python mutates its input in place; for every non-empty posted
data list on which to_python returns, the raw data stored on the field
has the identifier popped out of every item, and a subsequent do_save on
that stored state computes an empty posted-identifier set in its delete
phase, scheduling every current record for deletion, and routes every
posted item to the create path. -/
theorem c5_to_python_strips_identifiers (cfg : FieldCfg) (store pre post : List Record)
    (oracle : StoreOracle) (st : FieldState) (data : List Item)
    (h1 : data.isEmpty = false)
    (h2 : (to_python cfg store st data).err = none) :
    ((to_python cfg store st data).st.raw.getD []).all
        (fun it => !(dictContains it cfg.idField)) = true
    ∧ (do_save cfg oracle pre post (to_python cfg store st data).st).trace.filter
        isDeleteEv = [Event.deleteIssued (get_queryset pre)]
    ∧ (do_save cfg oracle pre post (to_python cfg store st data).st).trace.filter
        isRouteEv
      = ((to_python cfg store st data).st.raw.getD []).map Event.createCall := by
  have hfo : (data_as_forms_loop cfg store { st with raw := some data } data).err
      = none := by
    unfold to_python at h2
    simp [h1] at h2
    exact h2
  have hmut := data_as_forms_loop_mutated cfg store data
    { st with raw := some data } hfo
  have hraw : (to_python cfg store st data).st.raw
      = some (data.map fun it => (dictPop it cfg.idField).2) := by
    unfold to_python
    simp [h1, hmut]
  have hrawd : (to_python cfg store st data).st.raw.getD []
      = data.map fun it => (dictPop it cfg.idField).2 := by
    rw [hraw]; rfl
  have hall : (data.map fun it => (dictPop it cfg.idField).2).all
      (fun it => !(dictContains it cfg.idField)) = true := by
    rw [List.all_eq_true]
    intro it hit
    rw [List.mem_map] at hit
    obtain ⟨a, _, ha⟩ := hit
    rw [← ha]
    simp [dictContains_dictPop]
  obtain ⟨hct, hce⟩ := prepare_loop_all_create cfg pre
    (data.map fun it => (dictPop it cfg.idField).2) hall
    (blankErr (refresh_data cfg pre (to_python cfg store st data).st))
  refine ⟨by rw [hrawd]; exact hall, ?_, ?_⟩
  · rw [do_save_norm]
    simp only [hrawd, hce, hct,
      get_items_to_delete_no_id cfg.idField (get_queryset pre) _ hall]
    by_cases hc : (prepare_for_commit_loop cfg pre
        (blankErr (refresh_data cfg pre (to_python cfg store st data).st))
        (data.map fun it => (dictPop it cfg.idField).2)).creates.isEmpty <;>
      by_cases hu : (prepare_for_commit_loop cfg pre
          (blankErr (refresh_data cfg pre (to_python cfg store st data).st))
          (data.map fun it => (dictPop it cfg.idField).2)).updates.isEmpty <;>
        simp [hc, hu, isDeleteEv, filter_deleteEv_map_create]
  · rw [do_save_norm]
    simp only [hrawd, hce, hct,
      get_items_to_delete_no_id cfg.idField (get_queryset pre) _ hall]
    by_cases hc : (prepare_for_commit_loop cfg pre
        (blankErr (refresh_data cfg pre (to_python cfg store st data).st))
        (data.map fun it => (dictPop it cfg.idField).2)).creates.isEmpty <;>
      by_cases hu : (prepare_for_commit_loop cfg pre
          (blankErr (refresh_data cfg pre (to_python cfg store st data).st))
          (data.map fun it => (dictPop it cfg.idField).2)).updates.isEmpty <;>
        simp [hc, hu, isRouteEv, filter_routeEv_map_create]

/-- C6 (amended): the identifier-to-record lookup cache is never
invalidated by a reconciliation pass: when non-empty it survives do_save
unchanged, and the queryset is re-fetched by reassignment (never reset to
None), ending every pass as a some value. -/
theorem c6_lookup_cache_never_invalidated (cfg : FieldCfg) (oracle : StoreOracle)
    (pre post : List Record) (st : FieldState) (m : List (Value × Record))
    (h1 : st.qs_lookup_cache = some m) (h2 : m.isEmpty = false) :
    (do_save cfg oracle pre post st).st.qs_lookup_cache = some m
    ∧ (do_save cfg oracle pre post st).st.queryset.isSome = true := by
  rw [do_save_norm]
  have hcache : (prepare_for_commit_loop cfg pre
      (blankErr (refresh_data cfg pre st)) (st.raw.getD [])).st.qs_lookup_cache
      = some m :=
    prepare_loop_cache cfg pre _ _ m h1 h2
  have hquery : (prepare_for_commit_loop cfg pre
      (blankErr (refresh_data cfg pre st)) (st.raw.getD [])).st.queryset
      = (blankErr (refresh_data cfg pre st)).queryset :=
    prepare_loop_queryset cfg pre _ _
  have hbq : (blankErr (refresh_data cfg pre st)).queryset
      = some (get_queryset pre) := rfl
  cases hcore : (prepare_for_commit_loop cfg pre
      (blankErr (refresh_data cfg pre st)) (st.raw.getD [])).err with
  | some e =>
      simp [hcore, hcache, hquery, hbq]
  | none =>
      simp [hcore, hcache, hquery, refresh_data_cache, refresh_data_queryset]

/-- C8: on a pass with no uncaught exception, the do_save trace opens the
transaction, issues the delete first with a delete set computed from the
pre-reconciliation snapshot fetch (so it never sees records created in
the same pass), then the per-item routing calls, then the optional bulk
create followed by the optional bulk update, and closes the transaction,
in that order. -/
theorem c8_delete_first_inside_transaction (cfg : FieldCfg) (oracle : StoreOracle)
    (pre post : List Record) (st : FieldState)
    (h : (do_save cfg oracle pre post st).err = none) :
    ∃ (routeEvs : List Event) (cs : List Item) (us : List (Value × Item)),
      (do_save cfg oracle pre post st).trace
        = [Event.refreshFetch, Event.txBegin,
           Event.deleteIssued (get_items_to_delete cfg.idField
             (get_queryset pre) (st.raw.getD []))]
          ++ routeEvs
          ++ (if cs.isEmpty then [] else [Event.bulkCreate cs])
          ++ (if us.isEmpty then [] else [Event.bulkUpdate us])
          ++ [Event.txEnd, Event.refreshFetch]
      ∧ routeEvs.all isRouteEv = true := by
  rw [do_save_norm] at h ⊢
  cases hcore : (prepare_for_commit_loop cfg pre
      (blankErr (refresh_data cfg pre st)) (st.raw.getD [])).err with
  | some e => simp [hcore] at h
  | none =>
      refine ⟨(prepare_for_commit_loop cfg pre
          (blankErr (refresh_data cfg pre st)) (st.raw.getD [])).trace,
        (prepare_for_commit_loop cfg pre
          (blankErr (refresh_data cfg pre st)) (st.raw.getD [])).creates,
        (prepare_for_commit_loop cfg pre
          (blankErr (refresh_data cfg pre st)) (st.raw.getD [])).updates,
        ?_, prepare_loop_trace_route cfg pre _ _⟩
      simp [hcore]

end Silica

namespace Silica

/-- C7: store-level failures of the delete, bulk-create and bulk-update
phases are caught independently at batch granularity: the trace, the
uncaught-exception outcome and the per-identifier error map are the same
as in the failure-free run (so no failure aborts a sibling phase or
prevents a bulk write from being attempted), and the non-field error list
gains exactly one distinct summarised message per failing phase, each
appended independently of the other flags. -/
theorem c7_store_failures_independent (cfg : FieldCfg) (pre post : List Record) (st : FieldState)
    (d c u : Option String) :
    (do_save cfg ⟨d, c, u⟩ pre post st).trace
        = (do_save cfg ⟨none, none, none⟩ pre post st).trace
    ∧ (do_save cfg ⟨d, c, u⟩ pre post st).err
        = (do_save cfg ⟨none, none, none⟩ pre post st).err
    ∧ (do_save cfg ⟨d, c, u⟩ pre post st).st.update_errors
        = (do_save cfg ⟨none, none, none⟩ pre post st).st.update_errors
    ∧ ∃ (vmsgs : List String) (cb ub : Bool),
        (do_save cfg ⟨none, none, none⟩ pre post st).st.errors
            = st.errors ++ vmsgs
        ∧ (cb = true ↔ ∃ cs, Event.bulkCreate cs
            ∈ (do_save cfg ⟨none, none, none⟩ pre post st).trace)
        ∧ (ub = true ↔ ∃ us, Event.bulkUpdate us
            ∈ (do_save cfg ⟨none, none, none⟩ pre post st).trace)
        ∧ (do_save cfg ⟨d, c, u⟩ pre post st).st.errors
            = st.errors
              ++ (match d with
                  | some s => ["There was an error deleting items. " ++ s]
                  | none => [])
              ++ vmsgs
              ++ (match c with
                  | some s => if cb then
                      ["There was an error creating new objects. " ++ s] else []
                  | none => [])
              ++ (match u with
                  | some s => if ub then
                      ["There was an error updating existing objects. " ++ s] else []
                  | none => []) := by
  have hroute := prepare_loop_trace_route cfg pre (st.raw.getD [])
    (blankErr (refresh_data cfg pre st))
  rw [do_save_norm, do_save_norm]
  cases hcore : (prepare_for_commit_loop cfg pre
      (blankErr (refresh_data cfg pre st)) (st.raw.getD [])).err with
  | some e =>
      refine ⟨by simp [hcore], by simp [hcore], by simp [hcore],
        (prepare_for_commit_loop cfg pre
          (blankErr (refresh_data cfg pre st)) (st.raw.getD [])).st.errors,
        false, false, by simp [hcore], ?_, ?_, ?_⟩
      · constructor
        · intro hh; simp at hh
        · rintro ⟨cs, hm⟩
          simp [hcore, List.mem_append, List.mem_cons] at hm
          exact (not_bulkCreate_mem_of_route _ hroute cs hm).elim
      · constructor
        · intro hh; simp at hh
        · rintro ⟨us, hm⟩
          simp [hcore, List.mem_append, List.mem_cons] at hm
          exact (not_bulkUpdate_mem_of_route _ hroute us hm).elim
      · cases d <;> cases c <;> cases u <;> simp [hcore, List.append_assoc]
  | none =>
      refine ⟨by simp [hcore], by simp [hcore],
        by simp [hcore, refresh_data_update_errors], ?_⟩
      by_cases hcc : (prepare_for_commit_loop cfg pre
          (blankErr (refresh_data cfg pre st)) (st.raw.getD [])).creates.isEmpty <;>
        by_cases hcu : (prepare_for_commit_loop cfg pre
            (blankErr (refresh_data cfg pre st)) (st.raw.getD [])).updates.isEmpty
      · refine ⟨(prepare_for_commit_loop cfg pre
            (blankErr (refresh_data cfg pre st)) (st.raw.getD [])).st.errors,
          false, false,
          by simp [hcore, hcc, hcu, refresh_data_errors], ?_, ?_, ?_⟩
        · constructor
          · intro hh; simp at hh
          · rintro ⟨cs, hm⟩
            simp [hcore, hcc, hcu] at hm
            exact (not_bulkCreate_mem_of_route _ hroute cs hm).elim
        · constructor
          · intro hh; simp at hh
          · rintro ⟨us, hm⟩
            simp [hcore, hcc, hcu] at hm
            exact (not_bulkUpdate_mem_of_route _ hroute us hm).elim
        · cases d <;> cases c <;> cases u <;>
            simp [hcore, hcc, hcu, refresh_data_errors, List.append_assoc]
      · refine ⟨(prepare_for_commit_loop cfg pre
            (blankErr (refresh_data cfg pre st)) (st.raw.getD [])).st.errors,
          false, true,
          by simp [hcore, hcc, hcu, refresh_data_errors], ?_, ?_, ?_⟩
        · constructor
          · intro hh; simp at hh
          · rintro ⟨cs, hm⟩
            simp [hcore, hcc, hcu] at hm
            exact (not_bulkCreate_mem_of_route _ hroute cs hm).elim
        · constructor
          · intro _
            exact ⟨(prepare_for_commit_loop cfg pre
              (blankErr (refresh_data cfg pre st)) (st.raw.getD [])).updates,
              by simp [hcore, hcc, hcu]⟩
          · intro _; rfl
        · cases d <;> cases c <;> cases u <;>
            simp [hcore, hcc, hcu, refresh_data_errors, List.append_assoc]
      · refine ⟨(prepare_for_commit_loop cfg pre
            (blankErr (refresh_data cfg pre st)) (st.raw.getD [])).st.errors,
          true, false,
          by simp [hcore, hcc, hcu, refresh_data_errors], ?_, ?_, ?_⟩
        · constructor
          · intro _
            exact ⟨(prepare_for_commit_loop cfg pre
              (blankErr (refresh_data cfg pre st)) (st.raw.getD [])).creates,
              by simp [hcore, hcc, hcu]⟩
          · intro _; rfl
        · constructor
          · intro hh; simp at hh
          · rintro ⟨us, hm⟩
            simp [hcore, hcc, hcu] at hm
            exact (not_bulkUpdate_mem_of_route _ hroute us hm).elim
        · cases d <;> cases c <;> cases u <;>
            simp [hcore, hcc, hcu, refresh_data_errors, List.append_assoc]
      · refine ⟨(prepare_for_commit_loop cfg pre
            (blankErr (refresh_data cfg pre st)) (st.raw.getD [])).st.errors,
          true, true,
          by simp [hcore, hcc, hcu, refresh_data_errors], ?_, ?_, ?_⟩
        · constructor
          · intro _
            exact ⟨(prepare_for_commit_loop cfg pre
              (blankErr (refresh_data cfg pre st)) (st.raw.getD [])).creates,
              by simp [hcore, hcc, hcu]⟩
          · intro _; rfl
        · constructor
          · intro _
            exact ⟨(prepare_for_commit_loop cfg pre
              (blankErr (refresh_data cfg pre st)) (st.raw.getD [])).updates,
              by simp [hcore, hcc, hcu]⟩
          · intro _; rfl
        · cases d <;> cases c <;> cases u <;>
            simp [hcore, hcc, hcu, refresh_data_errors, List.append_assoc]

end Silica

namespace Silica

theorem keyTriple_none_iff (k : Key) :
    keyTriple k = none ↔ (k.splitOn ".").length < 3 := by
  unfold keyTriple
  cases h : k.splitOn "." with
  | nil => simp
  | cons a t =>
      cases t with
      | nil => simp
      | cons b t2 =>
          cases t2 with
          | nil => simp
          | cons c2 t3 => simp

theorem groupArray_loop_append (xs ys : List (Key × Value)) :
    ∀ (ak : List Key) (g : Dict (Dict Item)),
    groupArray_loop (xs ++ ys) ak g
      = groupArray_loop ys (groupArray_loop xs ak g).1 (groupArray_loop xs ak g).2 := by
  induction xs with
  | nil => intro ak g; simp [groupArray_loop]
  | cons kv rest ih =>
      intro ak g
      obtain ⟨k, v⟩ := kv
      simp only [List.cons_append, groupArray_loop]
      cases hk : keyTriple k with
      | none => exact ih ak g
      | some t => obtain ⟨n, c, f⟩ := t; exact ih (ak ++ [k]) (addArrayItem g n c f v)

theorem groupArray_loop_keys (raw : List (Key × Value)) :
    ∀ (ak : List Key) (g : Dict (Dict Item)),
    (groupArray_loop raw ak g).1
      = ak ++ (raw.filter
          (fun kv => decide (3 ≤ (kv.1.splitOn ".").length))).map Prod.fst := by
  induction raw with
  | nil => intro ak g; simp [groupArray_loop]
  | cons kv rest ih =>
      intro ak g
      obtain ⟨k, v⟩ := kv
      simp only [groupArray_loop]
      cases hk : keyTriple k with
      | none =>
          have hlen : (k.splitOn ".").length < 3 := (keyTriple_none_iff k).mp hk
          have : decide (3 ≤ (k.splitOn ".").length) = false := by
            simp; omega
          simp [List.filter_cons, this, ih]
      | some t =>
          obtain ⟨n, c, f⟩ := t
          have hlen : ¬ ((k.splitOn ".").length < 3) := by
            intro hl
            rw [← keyTriple_none_iff] at hl
            rw [hk] at hl
            simp at hl
          have : decide (3 ≤ (k.splitOn ".").length) = true := by
            simp; omega
          simp [List.filter_cons, this, ih, List.append_assoc]


end Silica
namespace Silica

theorem nestedLookup_addArrayItem (g : Dict (Dict Item)) (n c f n0 c0 f0 : Key)
    (v : Value) :
    nestedLookup (addArrayItem g n c f v) n0 c0 f0
      = if n = n0 ∧ c = c0 ∧ f = f0 then some v
        else nestedLookup g n0 c0 f0 := by
  unfold addArrayItem nestedLookup
  by_cases hn : n = n0
  · subst hn
    simp only [dictLookup_dictSet, if_pos rfl]
    by_cases hc : c = c0
    · subst hc
      simp only [dictLookup_dictSet, if_pos rfl]
      by_cases hf : f = f0
      · subst hf
        simp [dictLookup_dictSet]
      · simp only [hf, and_false, true_and, if_false]
        simp only [dictGetD]
        cases hg : dictLookup g n with
        | none => simp [dictLookup_dictSet, hf, dictLookup]
        | some inner =>
            simp only [Option.getD]
            cases hi : dictLookup inner c with
            | none => simp [dictLookup_dictSet, hf, dictLookup]
            | some itm => simp [dictLookup_dictSet, hf]
    · simp only [hc, false_and, and_false, true_and, if_false]
      simp only [dictGetD]
      cases hg : dictLookup g n with
      | none => simp [dictLookup_dictSet, hc, dictLookup]
      | some inner => simp [dictLookup_dictSet, hc]
  · have hno : ¬ (n = n0 ∧ c = c0 ∧ f = f0) := fun h => hn h.1
    simp [dictLookup_dictSet, hn, hno]

end Silica

namespace Silica

theorem groupArray_lookup_last (raw : List (Key × Value)) (n c f : Key) :
    nestedLookup (groupArray raw).2 n c f
      = (raw.reverse.find?
          (fun kv => decide (keyTriple kv.1 = some (n, c, f)))).map Prod.snd := by
  unfold groupArray
  induction raw using List.reverseRecOn with
  | nil => simp [groupArray_loop, nestedLookup, dictLookup]
  | append_singleton xs kv ih =>
      obtain ⟨k, v⟩ := kv
      rw [groupArray_loop_append]
      simp only [List.reverse_append, List.reverse_cons, List.reverse_nil,
        List.nil_append, List.cons_append, List.find?]
      cases hk : keyTriple k with
      | none =>
          simp only [groupArray_loop, hk]
          simpa using ih
      | some t =>
          obtain ⟨n1, c1, f1⟩ := t
          simp only [groupArray_loop, hk]
          rw [nestedLookup_addArrayItem]
          by_cases heq : n1 = n ∧ c1 = c ∧ f1 = f
          · obtain ⟨e1, e2, e3⟩ := heq
            subst e1; subst e2; subst e3
            simp
          · rw [if_neg heq]
            have hd : decide ((some (n1, c1, f1) : Option (Key × Key × Key))
                = some (n, c, f)) = false := by
              simp only [decide_eq_false_iff_not, Option.some.injEq, Prod.mk.injEq]
              exact fun h => heq h
            rw [hd]
            simpa using ih

end Silica

namespace Silica

theorem take_append_self {α : Type} (a b : List α) :
    (a ++ b).take a.length = a := by
  induction a with
  | nil => rfl
  | cons x t ih => simp [ih]

/-- C9: the key-path decoder consumes exactly the keys with at least
three delimiter-separated segments (all other keys are left untouched in
the flat map: they never enter the recognised array-key list), and
buckets each consumed key by its first segment, then by its second
segment, the item map holding under the third segment the value of the
most recent such key (insertion-ordered nested dicts with overwrite); the
output exposes, per array-field name, the item maps in index-token
insertion order. -/
theorem c9_key_path_decoder (raw : List (Key × Value)) :
    (extract_array_info raw).1
      = (raw.filter (fun kv => decide (3 ≤ (kv.1.splitOn ".").length))).map Prod.fst
    ∧ (∀ n c f, nestedLookup (groupArray raw).2 n c f
        = (raw.reverse.find?
            (fun kv => decide (keyTriple kv.1 = some (n, c, f)))).map Prod.snd)
    ∧ (extract_array_info raw).2
      = (groupArray raw).2.map (fun p => (p.1, p.2.map Prod.snd)) := by
  refine ⟨?_, fun n c f => groupArray_lookup_last raw n c f, ?_⟩
  · unfold extract_array_info
    by_cases hr : raw.isEmpty
    · have hnil : raw = [] := by
        cases raw with
        | nil => rfl
        | cons a t => simp at hr
      subst hnil
      simp
    · simp only [hr, Bool.false_eq_true, if_false]
      unfold groupArray
      rw [groupArray_loop_keys]
      simp
  · unfold extract_array_info
    by_cases hr : raw.isEmpty
    · have hnil : raw = [] := by
        cases raw with
        | nil => rfl
        | cons a t => simp at hr
      subst hnil
      simp [groupArray, groupArray_loop]
    · simp [hr]

theorem isEmpty_map_eq {α β : Type} (f : α → β) (l : List α) :
    (l.map f).isEmpty = l.isEmpty := by
  cases l <;> simp

theorem isEmpty_append_singleton {α : Type} (l : List α) (a : α) :
    (l ++ [a]).isEmpty = false := by
  cases l <;> simp

/-- C10 counterexample: a state carrying a recorded per-identifier update
error, but no non-field errors, makes validate raise nothing on a truthy
coerced value (one error-free form): the per-identifier update-error map
is never read by validate, so errors recorded in it are NOT re-raised by
validate in later passes, refuting the claim as stated. -/
theorem c10_update_errors_not_reraised_counterexample :
    ({ update_errors := [("1", ["invalid name"])] } : FieldState).update_errors
      = [("1", ["invalid name"])]
    ∧ validate { update_errors := [("1", ["invalid name"])] }
        (some [⟨[], [("name", "A")]⟩]) = none :=
  ⟨rfl, rfl⟩

/-- C10 (amended): the error containers modelled as class-level shared
state are mutable and never reset, so errors recorded during one
reconciliation pass remain in place and are visible to every instance
sharing the class state: to_python leaves the non-field error list and
the per-identifier update-error map exactly unchanged, do_save only ever
extends both (the initial contents stay as a prefix, never reset), the
sub-form field handler only ever extends its class-level errors list, and
validate raises exactly when the coerced value is truthy and either some
form carries errors or the non-field error list is non-empty — so
recorded non-field errors are re-raised by validate in later passes,
while the per-identifier update-error map, although it persists, is never
consulted by validate (validate is invariant under replacing it). -/
theorem c10_error_containers_append_only (cfg : FieldCfg) (store pre post : List Record)
    (oracle : StoreOracle) (st : FieldState) (data : List Item)
    (forms : List FormResult) (dataS : Item) (errs : List (List String))
    (uerrs : List (Value × List String)) :
    ((to_python cfg store st data).st.errors = st.errors
      ∧ (to_python cfg store st data).st.update_errors = st.update_errors)
    ∧ ((do_save cfg oracle pre post st).st.errors.take st.errors.length
          = st.errors
      ∧ (do_save cfg oracle pre post st).st.update_errors.take
          st.update_errors.length = st.update_errors)
    ∧ (subform_handle_create cfg errs dataS).2.take errs.length = errs
    ∧ (validate st (some forms)).isSome
        = (!forms.isEmpty
            && (forms.any (fun f => !f.errors.isEmpty) || !st.errors.isEmpty))
    ∧ validate { st with update_errors := uerrs } (some forms)
        = validate st (some forms) := by
  refine ⟨to_python_pres cfg store st data, ⟨?_, ?_⟩, ?_, ?_, rfl⟩
  · rw [do_save_norm]
    cases hcore : (prepare_for_commit_loop cfg pre
        (blankErr (refresh_data cfg pre st)) (st.raw.getD [])).err with
    | some e =>
        simp only [hcore, List.append_assoc]
        exact take_append_self _ _
    | none =>
        simp only [hcore, refresh_data_errors, List.append_assoc]
        exact take_append_self _ _
  · rw [do_save_norm]
    cases hcore : (prepare_for_commit_loop cfg pre
        (blankErr (refresh_data cfg pre st)) (st.raw.getD [])).err with
    | some e =>
        simp only [hcore]
        exact take_append_self _ _
    | none =>
        simp only [hcore, refresh_data_update_errors]
        exact take_append_self _ _
  · unfold subform_handle_create
    by_cases he : (cfg.form dataS none).errors.isEmpty
    · simp [he, List.take_length]
    · simp only [he, Bool.false_eq_true, if_false]
      exact take_append_self _ _
  · unfold validate
    by_cases hf : forms.isEmpty
    · simp [hf]
    · by_cases he : st.errors.isEmpty
      · by_cases ha : forms.any (fun f => !f.errors.isEmpty)
        · have hm : ((forms.filter (fun f => !f.errors.isEmpty)).map
              (fun f => f.errors)).isEmpty = false := by
            rw [isEmpty_map_eq, filter_isEmpty_eq_not_any]
            simp [ha]
          simp [hf, he, ha, hm]
        · have hm : ((forms.filter (fun f => !f.errors.isEmpty)).map
              (fun f => f.errors)).isEmpty = true := by
            rw [isEmpty_map_eq, filter_isEmpty_eq_not_any]
            simp [ha]
          simp [hf, he, ha, hm]
      · simp [hf, he, isEmpty_append_singleton]

end Silica

namespace Silica

/-- C5 witness: concrete run, posted items for record 1 plus one new item;
after to_python the stored raw items carry no identifier. -/
theorem c5_to_python_strips_identifiers_witness :
    ([[("pk", "1"), ("name", "A")], [("name", "B")]] : List Item).isEmpty = false
    ∧ (to_python exCfg [⟨"1", [("name", "A")]⟩] {}
        [[("pk", "1"), ("name", "A")], [("name", "B")]]).err = none
    ∧ ((to_python exCfg [⟨"1", [("name", "A")]⟩] {}
        [[("pk", "1"), ("name", "A")], [("name", "B")]]).st.raw.getD []).all
        (fun it => !(dictContains it exCfg.idField)) = true :=
  ⟨by decide, by decide,
   (c5_to_python_strips_identifiers exCfg [⟨"1", [("name", "A")]⟩]
      [⟨"1", [("name", "A")]⟩] [⟨"1", [("name", "A")]⟩] exOracle {}
      [[("pk", "1"), ("name", "A")], [("name", "B")]]
      (by decide) (by decide)).1⟩

/-- C6 counterexample: after a full do_save pass against a store whose
post-commit contents are record 2, the lookup cache still holds the table
built from the stale record 1 (it is not reset to None before or after
the pass, and differs from a fresh lookup built from the post-commit
records), refuting the claim that the lookup state is invalidated around
every pass. -/
theorem c6_cache_not_reset_counterexample :
    (do_save exCfg exOracle [⟨"1", [("name", "OLD")]⟩] [⟨"2", [("name", "NEW")]⟩]
        { qs_lookup_cache := some [("1", ⟨"1", [("name", "OLD")]⟩)],
          raw := some [[("pk", "1"), ("name", "B")]] }).st.qs_lookup_cache
      = some [("1", ⟨"1", [("name", "OLD")]⟩)]
    ∧ decide ((some [("1", (⟨"1", [("name", "OLD")]⟩ : Record))]
        : Option (List (Value × Record))) = none) = false
    ∧ decide (qs_lookup_build (get_queryset [⟨"2", [("name", "NEW")]⟩])
        = [("1", (⟨"1", [("name", "OLD")]⟩ : Record))]) = false :=
  ⟨by decide, by decide, by decide⟩

/-- C6 witness: concrete run of the amended theorem with a populated
non-empty lookup cache. -/
theorem c6_lookup_cache_never_invalidated_witness :
    ({ qs_lookup_cache := some [("1", ⟨"1", [("name", "OLD")]⟩)],
       raw := some [[("pk", "1"), ("name", "B")]] }
      : FieldState).qs_lookup_cache = some [("1", ⟨"1", [("name", "OLD")]⟩)]
    ∧ ([("1", (⟨"1", [("name", "OLD")]⟩ : Record))]).isEmpty = false
    ∧ (do_save exCfg exOracle [⟨"1", [("name", "OLD")]⟩]
        [⟨"2", [("name", "NEW")]⟩]
        { qs_lookup_cache := some [("1", ⟨"1", [("name", "OLD")]⟩)],
          raw := some [[("pk", "1"), ("name", "B")]] }).st.qs_lookup_cache
      = some [("1", ⟨"1", [("name", "OLD")]⟩)] :=
  ⟨by decide, by decide,
   (c6_lookup_cache_never_invalidated exCfg exOracle
      [⟨"1", [("name", "OLD")]⟩] [⟨"2", [("name", "NEW")]⟩]
      { qs_lookup_cache := some [("1", ⟨"1", [("name", "OLD")]⟩)],
        raw := some [[("pk", "1"), ("name", "B")]] }
      [("1", ⟨"1", [("name", "OLD")]⟩)] (by decide) (by decide)).1⟩

/-- C8 witness: concrete successful pass with one update and one create. -/
theorem c8_delete_first_inside_transaction_witness :
    (do_save exCfg exOracle
        [⟨"1", [("name", "A")]⟩, ⟨"2", [("name", "B")]⟩]
        [⟨"1", [("name", "A2")]⟩]
        { raw := some [[("pk", "1"), ("name", "A2")], [("name", "C")]] }).err
      = none
    ∧ ∃ (routeEvs : List Event) (cs : List Item) (us : List (Value × Item)),
      (do_save exCfg exOracle
          [⟨"1", [("name", "A")]⟩, ⟨"2", [("name", "B")]⟩]
          [⟨"1", [("name", "A2")]⟩]
          { raw := some [[("pk", "1"), ("name", "A2")], [("name", "C")]] }).trace
        = [Event.refreshFetch, Event.txBegin,
           Event.deleteIssued (get_items_to_delete exCfg.idField
             (get_queryset [⟨"1", [("name", "A")]⟩, ⟨"2", [("name", "B")]⟩])
             (({ raw := some [[("pk", "1"), ("name", "A2")], [("name", "C")]] }
               : FieldState).raw.getD []))]
          ++ routeEvs
          ++ (if cs.isEmpty then [] else [Event.bulkCreate cs])
          ++ (if us.isEmpty then [] else [Event.bulkUpdate us])
          ++ [Event.txEnd, Event.refreshFetch]
      ∧ routeEvs.all isRouteEv = true :=
  ⟨by decide,
   c8_delete_first_inside_transaction exCfg exOracle
     [⟨"1", [("name", "A")]⟩, ⟨"2", [("name", "B")]⟩]
     [⟨"1", [("name", "A2")]⟩]
     { raw := some [[("pk", "1"), ("name", "A2")], [("name", "C")]] }
     (by decide)⟩

end Silica
